import Mathlib

/-!
Verification development for the elf-magic discovery-filter-build-codegen
pipeline.  Rust source files are shallowly embedded as Lean definitions:
pure functions become Lean functions, file-system and subprocess effects
become explicit state passing with the external collaborator's behaviour
supplied as a parameter.  Paths are modelled as their display strings.
-/

namespace ElfMagic

/-!
## Glob pattern primitive

The repository delegates glob matching to the external `glob` crate
(`glob::Pattern::new` / `Pattern::matches`), which is not part of the
repository's sources.  Modelled from the spec: the Pattern Matcher
component (§4.1) evaluates a single glob pattern against a single string,
supports `*` (any run, including empty), `?` (exactly one character) and
bracketed character classes, and an unparsable pattern (e.g. an unbalanced
character class) fails to parse rather than raising.  Parsing returns
`none` exactly on the malformed inputs the external primitive rejects:
three or more consecutive stars, a misplaced recursive wildcard, or an
unterminated character class.  The recursive wildcard `**` is approximated
by the same any-run semantics as `*`; no claim exercises it.
-/

/-- One entry of a glob character class: a single character or a range. -/
inductive CharSpec where
  | single (c : Char)
  | rangeSpec (lo hi : Char)
deriving DecidableEq

/-- Parsed glob pattern tokens. -/
inductive GlobToken where
  | char (c : Char)
  | anyChar
  | anySequence
  | anyRecursiveSequence
  | anyWithin (specs : List CharSpec)
  | anyExcept (specs : List CharSpec)
deriving DecidableEq

/-- Parse the contents of a character class: `a-z` becomes a range, any
other character stands for itself. -/
def parseCharSpecifiers : List Char → List CharSpec
  | a :: '-' :: b :: rest => CharSpec.rangeSpec a b :: parseCharSpecifiers rest
  | a :: rest => CharSpec.single a :: parseCharSpecifiers rest
  | [] => []

/-- Split a character list at the first `]`, returning the part before it
and the part after it; `none` when no `]` occurs (unterminated class). -/
def splitAtRBracket : List Char → Option (List Char × List Char)
  | [] => none
  | c :: rest =>
    if c = ']' then some ([], rest)
    else
      match splitAtRBracket rest with
      | some (pre, post) => some (c :: pre, post)
      | none => none

/-- Fuel-indexed glob parser.  `prev` is the character preceding the
current position (`none` at the start), used to validate that a recursive
wildcard `**` forms a whole path component.  The fuel only bounds the
recursion depth; `parseGlob` supplies one unit per input character, which
always suffices since every step consumes at least one character. -/
def parseGlobFuel : Nat → Option Char → List Char → Option (List GlobToken)
  | 0, _, _ => none
  | _ + 1, _, [] => some []
  | fuel + 1, _, '?' :: rest =>
    (parseGlobFuel fuel (some '?') rest).map (GlobToken.anyChar :: ·)
  | fuel + 1, prev, '*' :: rest =>
    (match rest with
     | '*' :: '*' :: _ => none
     | '*' :: rest2 =>
       if prev = none ∨ prev = some '/' then
         match rest2 with
         | '/' :: rest3 =>
           (parseGlobFuel fuel (some '/') rest3).map
             (GlobToken.anyRecursiveSequence :: ·)
         | [] => some [GlobToken.anyRecursiveSequence]
         | _ => none
       else none
     | _ => (parseGlobFuel fuel (some '*') rest).map (GlobToken.anySequence :: ·))
  | fuel + 1, _, '[' :: rest =>
    (match rest with
     | '!' :: c0 :: rest2 =>
       match splitAtRBracket rest2 with
       | some (pre, post) =>
         (parseGlobFuel fuel (some ']') post).map
           (GlobToken.anyExcept (parseCharSpecifiers (c0 :: pre)) :: ·)
       | none => none
     | c0 :: c1 :: rest2 =>
       match splitAtRBracket (c1 :: rest2) with
       | some (pre, post) =>
         (parseGlobFuel fuel (some ']') post).map
           (GlobToken.anyWithin (parseCharSpecifiers (c0 :: pre)) :: ·)
       | none => none
     | _ => none)
  | fuel + 1, _, c :: rest =>
    (parseGlobFuel fuel (some c) rest).map (GlobToken.char c :: ·)

/-- A compiled glob pattern (the `glob::Pattern` interface). -/
structure Pattern where
  tokens : List GlobToken
deriving DecidableEq

/-- `glob::Pattern::new`: `none` on a malformed pattern. -/
def Pattern.new (s : String) : Option Pattern :=
  (parseGlobFuel (s.data.length + 1) none s.data).map Pattern.mk

/-- Membership of a character in a character class. -/
def inCharSpecifiers (specs : List CharSpec) (c : Char) : Bool :=
  specs.any fun s =>
    match s with
    | CharSpec.single d => c = d
    | CharSpec.rangeSpec lo hi => lo ≤ c && c ≤ hi

/-- Any-run matching: try the continuation on every suffix of the input. -/
def matchStarAux (k : List Char → Bool) : List Char → Bool
  | [] => k []
  | c :: rest => k (c :: rest) || matchStarAux k rest

/-- Token-list matcher (the `Pattern::matches` interface under default
match options). -/
def matchTokens : List GlobToken → List Char → Bool
  | [], file => file.isEmpty
  | GlobToken.char c :: ts, file =>
    match file with
    | d :: rest => c = d && matchTokens ts rest
    | [] => false
  | GlobToken.anyChar :: ts, file =>
    match file with
    | _ :: rest => matchTokens ts rest
    | [] => false
  | GlobToken.anyWithin specs :: ts, file =>
    match file with
    | d :: rest => inCharSpecifiers specs d && matchTokens ts rest
    | [] => false
  | GlobToken.anyExcept specs :: ts, file =>
    match file with
    | d :: rest => !inCharSpecifiers specs d && matchTokens ts rest
    | [] => false
  | GlobToken.anySequence :: ts, file => matchStarAux (matchTokens ts) file
  | GlobToken.anyRecursiveSequence :: ts, file => matchStarAux (matchTokens ts) file

/-- `glob::Pattern::matches`. -/
def Pattern.matchesText (p : Pattern) (text : String) : Bool :=
  matchTokens p.tokens text.data

/-!
## Programs and the discovery filter (src/workspace.rs, src/programs.rs)
-/

/-- A confirmed Solana program (src/programs.rs `SolanaProgram`, as
constructed in `Workspace::discover_programs`).  `manifest_path` is the
`PathBuf` in its display-string form. -/
structure SolanaProgram where
  manifest_path : String
  package_name : String
  target_name : String
deriving DecidableEq

/-- Character-list form of `str::strip_prefix`. -/
def listStripPre : List Char → List Char → Option (List Char)
  | [], s => some s
  | _ :: _, [] => none
  | p :: ps, c :: cs => if p = c then listStripPre ps cs else none

/-- Rust `str::strip_prefix`: the remainder of `s` after `pre`, when `pre`
leads `s`. -/
def stripPre (pre s : String) : Option String :=
  (listStripPre pre.data s.data).map String.mk

/-- src/workspace.rs `matches_glob`: compile the pattern and match;
an unparsable pattern matches nothing (`unwrap_or(false)`). -/
def matches_glob (text pattern : String) : Bool :=
  ((Pattern.new pattern).map fun p => p.matchesText text).getD false

/-- src/workspace.rs `matches_program_pattern`: dispatch on the namespace
of the pattern (`target:` / `package:` / `path:`); a pattern without a
recognized namespace is invalid and matches nothing (a warning is printed,
which the embedding drops). -/
def matches_program_pattern (program : SolanaProgram) (pat : String) : Bool :=
  match stripPre "target:" pat with
  | some target_pattern => matches_glob program.target_name target_pattern
  | none =>
    match stripPre "package:" pat with
    | some package_pattern => matches_glob program.package_name package_pattern
    | none =>
      match stripPre "path:" pat with
      | some path_pattern => matches_glob program.manifest_path path_pattern
      | none => false

/-- src/workspace.rs `should_only_include_program` (laser-eyes mode). -/
def should_only_include_program (program : SolanaProgram)
    (only_patterns : List String) : Bool :=
  only_patterns.any fun pat => matches_program_pattern program pat

/-- src/workspace.rs `should_include_program_permissive`. -/
def should_include_program_permissive (program : SolanaProgram)
    (deny_patterns : List String) : Bool :=
  !(deny_patterns.any fun pat => matches_program_pattern program pat)

/-- A cargo target as reported by the metadata collaborator; only the
fields `Workspace::discover_programs` reads. -/
structure Target where
  name : String
  crate_types : List String
deriving DecidableEq

/-- A cargo package as reported by the metadata collaborator. -/
structure Package where
  name : String
  manifest_path : String
  targets : List Target
deriving DecidableEq

/-- The package catalog produced by `cargo metadata`
(`cargo_metadata::Metadata`, restricted to the fields the pipeline
reads). -/
structure Metadata where
  workspace_root : String
  packages : List Package
deriving DecidableEq

/-- src/workspace.rs `FilterMode`. -/
inductive FilterMode where
  | magic
  | deny (patterns : List String)
  | only (patterns : List String)
deriving DecidableEq

/-- src/workspace.rs `Workspace`. -/
structure Workspace where
  metadata : Metadata
  manifest_path : String
  filter_mode : FilterMode
deriving DecidableEq

/-- src/programs.rs `DiscoveredPrograms`. -/
structure DiscoveredPrograms where
  workspace_path : String
  included : List SolanaProgram
  excluded : List SolanaProgram
deriving DecidableEq

/-- Classification applied by the `match` on `filter_mode` inside the
discovery loop. -/
def filterIncluded (mode : FilterMode) (program : SolanaProgram) : Bool :=
  match mode with
  | FilterMode.magic => true
  | FilterMode.deny deny_patterns =>
    should_include_program_permissive program deny_patterns
  | FilterMode.only only_patterns =>
    should_only_include_program program only_patterns

/-- The `SolanaProgram` record built for one (package, target) pair. -/
def toProgram (pkg : Package) (t : Target) : SolanaProgram :=
  { package_name := pkg.name
    target_name := t.name
    manifest_path := pkg.manifest_path }

/-- The candidate programs of a workspace in catalog iteration order: one
per (package, target) pair whose declared crate types contain `cdylib`;
every other target is skipped (`continue`). -/
def Workspace.candidates (w : Workspace) : List SolanaProgram :=
  w.metadata.packages.flatMap fun pkg =>
    pkg.targets.filterMap fun t =>
      if "cdylib" ∈ t.crate_types then some (toProgram pkg t) else none

/-- `a.target_name <= b.target_name`: the comparator of the two
`sort_by` calls (Rust `sort_by` is a stable sort, modelled by
`List.insertionSort`). -/
def targetLe (a b : SolanaProgram) : Prop := a.target_name ≤ b.target_name

instance : DecidableRel targetLe := fun a b =>
  inferInstanceAs (Decidable (a.target_name ≤ b.target_name))

instance : IsTotal SolanaProgram targetLe :=
  ⟨fun a b => le_total a.target_name b.target_name⟩

instance : IsTrans SolanaProgram targetLe :=
  ⟨fun _ _ _ h h' => le_trans h h'⟩

/-- src/workspace.rs `Workspace::discover_programs`: walk every
(package, target) pair, keep only `cdylib` targets, classify each
candidate under the active filter mode (pushing preserves iteration
order, hence the two lists are `filter`s of the candidate list), then
stable-sort both lists by target name. -/
def Workspace.discover_programs (w : Workspace) : DiscoveredPrograms :=
  let cands := w.candidates
  let included := cands.filter fun p => filterIncluded w.filter_mode p
  let excluded := cands.filter fun p => !filterIncluded w.filter_mode p
  { workspace_path := w.manifest_path
    included := List.insertionSort targetLe included
    excluded := List.insertionSort targetLe excluded }

/-!
## Configuration and the workspace loader (src/config.rs, src/workspace.rs)
-/

/-- src/config.rs `LaserEyesWorkspaceConfig`. -/
structure LaserEyesWorkspaceConfig where
  manifest_path : String
  only : List String
deriving DecidableEq

/-- src/config.rs `PermissiveWorkspaceConfig` (`deny` defaults to empty
and accepts the legacy alias `exclude`; both deserialize into the same
field, so the embedding keeps only `deny`). -/
structure PermissiveWorkspaceConfig where
  manifest_path : String
  deny : List String
deriving DecidableEq

/-- src/config.rs `Config`.  The `constants` and `targets` override maps
are not consulted by any of the discovery, build or deduplication code
under verification and are omitted. -/
inductive Config where
  | magic
  | laserEyes (workspaces : List LaserEyesWorkspaceConfig)
  | permissive (workspaces : List PermissiveWorkspaceConfig)
      (global_deny : List String)
deriving DecidableEq

/-- The workspace built for one permissive-mode entry: global denies are
merged (in order) with the workspace-specific denies
(`merged_denies.extend`). -/
def mkPermissiveWorkspace (metaOf : Option String → Metadata)
    (global_deny : List String) (ws : PermissiveWorkspaceConfig) : Workspace :=
  { metadata := metaOf (some ws.manifest_path)
    manifest_path := ws.manifest_path
    filter_mode := FilterMode.deny (global_deny ++ ws.deny) }

/-- The workspace built for one laser-eyes entry. -/
def mkLaserEyesWorkspace (metaOf : Option String → Metadata)
    (ws : LaserEyesWorkspaceConfig) : Workspace :=
  { metadata := metaOf (some ws.manifest_path)
    manifest_path := ws.manifest_path
    filter_mode := FilterMode.only ws.only }

/-- src/workspace.rs `load_workspaces`.  The external
`cargo_metadata::MetadataCommand` collaborator is supplied as `metaOf`:
`metaOf (some p)` is the catalog for manifest path `p`, `metaOf none` the
catalog of the invoking project (magic mode, no explicit manifest).
Collaborator failures abort the whole call in the source; the embedding
studies the successful executions, which is all the claims quantify
over. -/
def load_workspaces (metaOf : Option String → Metadata) :
    Config → List Workspace
  | Config.laserEyes wss => wss.map (mkLaserEyesWorkspace metaOf)
  | Config.magic =>
    let m := metaOf none
    [{ metadata := m
       manifest_path := m.workspace_root ++ "/Cargo.toml"
       filter_mode := FilterMode.magic }]
  | Config.permissive wss global_deny =>
    wss.map (mkPermissiveWorkspace metaOf global_deny)

/-!
## Deduplication (src/programs.rs `deduplicate_programs`)
-/

/-- First-occurrence filter keyed by `manifest_path`: the
`HashMap::entry(..).or_insert(program)` loop keeps, for every manifest
path, exactly the first program of the input carrying it.  `seen` is the
set of keys already inserted. -/
def dedupeFirstOcc (seen : List String) :
    List SolanaProgram → List SolanaProgram
  | [] => []
  | p :: rest =>
    if p.manifest_path ∈ seen then dedupeFirstOcc seen rest
    else p :: dedupeFirstOcc (p.manifest_path :: seen) rest

/-- src/programs.rs `deduplicate_programs`: group by `manifest_path`,
keep the first occurrence per group, then sort by `target_name`
(`sort_by` on the collected values; the hash map's arbitrary value order
is erased by the final sort, which the embedding realizes by sorting the
first-occurrence representatives). -/
def deduplicate_programs (programs : List SolanaProgram) :
    List SolanaProgram :=
  List.insertionSort targetLe (dedupeFirstOcc [] programs)

/-!
## The build orchestrator (src/builder.rs, src/programs.rs)
-/

/-- The payload of `Error::ProgramBuild` (src/error.rs). -/
structure BuildError where
  program : String
  error : String
deriving DecidableEq

/-- src/programs.rs `BuildResult`: the aggregate of per-program build
outcomes. -/
structure BuildResult where
  successful : List (SolanaProgram × String)
  failed : List (SolanaProgram × BuildError)
deriving DecidableEq

/-- src/builder.rs `build_programs`: loop over every program, record the
outcome of each via `add_success` / `add_failure`, never aborting the
batch.  The per-program build (`build_program`, an external-process
interaction) is supplied as `buildOne`. -/
def build_programs (buildOne : SolanaProgram → Except BuildError String)
    (programs : List SolanaProgram) : BuildResult :=
  programs.foldl
    (fun result program =>
      match buildOne program with
      | Except.ok path =>
        { result with successful := result.successful ++ [(program, path)] }
      | Except.error e =>
        { result with failed := result.failed ++ [(program, e)] })
    { successful := [], failed := [] }

/-- The observable behaviour of one `cargo build-sbf` invocation:
whether `Command::status()` returned `Ok`, the exit code
(`status.code()`, `none` when killed by a signal), and the set of files
the command deposits. -/
structure CmdBehavior where
  spawnOk : Bool
  exitCode : Option Int
  filesCreated : List String
deriving DecidableEq

/-- `ExitStatus::success()`: exit code zero. -/
def statusSuccess (cmd : CmdBehavior) : Bool := cmd.exitCode == some 0

/-- Rust `format!` of `status.code()` with the `{:?}` debug formatter. -/
def optionIntDebug : Option Int → String
  | some n => "Some(" ++ toString n ++ ")"
  | none => "None"

/-- src/builder.rs: `std::env::temp_dir().join("elf-magic-bin").join(package_name)`. -/
def sbf_out_dir (tempDir : String) (program : SolanaProgram) : String :=
  tempDir ++ "/elf-magic-bin/" ++ program.package_name

/-- src/builder.rs: the expected `.so` output path for a program. -/
def program_so_path (tempDir : String) (program : SolanaProgram) : String :=
  sbf_out_dir tempDir program ++ "/" ++ program.target_name ++ ".so"

/-- src/builder.rs `build_program`, over an explicit file-system state
(the list of existing file paths) and the behaviour of the external
`cargo build-sbf` collaborator: remove any pre-existing `.so` at the
expected path, invoke the command, fail on spawn error, on non-zero exit
(detail includes the debug-formatted exit status), or on the expected
output being absent afterwards; otherwise succeed with the output path.
File removal is modelled as always succeeding (its failure is a distinct
`ProgramBuild` error in the source and makes the run fail even
earlier). -/
def build_program (tempDir : String) (cmd : CmdBehavior)
    (fs : List String) (program : SolanaProgram) :
    Except BuildError String × List String :=
  let soPath := program_so_path tempDir program
  let fs1 := fs.filter fun f => f ≠ soPath
  if !cmd.spawnOk then
    (Except.error
      { program := program.target_name
        error := "Failed to execute cargo build-sbf: spawn error\nMake sure solana CLI tools are installed" },
      fs1)
  else
    let fs2 := fs1 ++ cmd.filesCreated
    if !statusSuccess cmd then
      (Except.error
        { program := program.target_name
          error := "cargo build-sbf failed with exit code: " ++
            optionIntDebug cmd.exitCode },
        fs2)
    else if soPath ∉ fs2 then
      (Except.error
        { program := program.target_name
          error := "Expected .so file not found at: " ++ soPath },
        fs2)
    else
      (Except.ok soPath, fs2)

/-!
## Constant-name derivation (src/domain.rs `SolanaProgram`)
-/

/-- Rust `str::to_uppercase`, restricted to the one-codepoint-per-char
mapping (all names the pipeline derives constants from are ASCII). -/
def rustToUppercase (s : String) : String := String.mk (s.data.map Char.toUpper)

/-- src/domain.rs `SolanaProgram` (this variant names the field `name`). -/
structure DomainSolanaProgram where
  name : String
  path : String
  manifest_path : String
deriving DecidableEq

/-- src/domain.rs `SolanaProgram::constant_name`:
`format!("{}_ELF", self.name.to_uppercase())`. -/
def DomainSolanaProgram.constant_name (p : DomainSolanaProgram) : String :=
  rustToUppercase p.name ++ "_ELF"

/-- The constant-name derivation as the spec words it (§4.7): uppercase
the target name, replace any non-alphanumeric separator with an
underscore, append the fixed `_ELF` suffix.  Stated for refinement
comparison against `DomainSolanaProgram.constant_name`. -/
def specConstantName (name : String) : String :=
  String.mk (name.data.map fun c => if c.isAlphanum then c.toUpper else '_') ++
    "_ELF"

/-!
## Atomic generated-file replacement (src/io.rs `write_lib_file`)
-/

/-- A file system as an association of paths to contents (first binding
wins on lookup; the mutators below keep at most one binding per path). -/
def FS := List (String × String)

/-- Contents of the file at `path`, when it exists. -/
def fsGet (fs : FS) (path : String) : Option String :=
  (fs.find? fun e => e.fst == path).map Prod.snd

/-- Delete the file at `path`. -/
def fsRemove (fs : FS) (path : String) : FS :=
  fs.filter fun e => e.fst ≠ path

/-- Create or overwrite the file at `path` with `content`. -/
def fsSet (fs : FS) (path content : String) : FS :=
  (path, content) :: fsRemove fs path

/-- The observable behaviour of the `cargo fmt` collaborator on the
temporary file: whether `Command::output()` returned `Ok`, and whether
the exit status was success.  Formatting rewrites the file in canonical
style; the embedding abstracts the rewrite as content-preserving. -/
structure FmtBehavior where
  runOk : Bool
  exitSuccess : Bool
deriving DecidableEq

/-- The fallible-step outcomes of one `write_lib_file` run: the rendering
result of the code generator (`codegen::render_lib_file`, a collaborator
of `save`), the fresh name `NamedTempFile::new_in` would pick, and
success flags for temp-file creation, the content write, and the final
`persist` (atomic rename). -/
structure SaveEnv where
  renderResult : Except String String
  tempName : String
  tempCreateOk : Bool
  writeOk : Bool
  fmt : FmtBehavior
  persistOk : Bool

/-- Result classification of `write_lib_file`. -/
inductive SaveOutcome where
  | ok
  | codegenError (msg : String)
  | ioError (stage : String)
deriving DecidableEq

/-- The canonical generated-file path: `cargo_manifest_dir/src/lib.rs`. -/
def libTargetPath (cargo_manifest_dir : String) : String :=
  cargo_manifest_dir ++ "/src/lib.rs"

/-- The temporary file's path: a fresh name inside the same directory as
the final target (`NamedTempFile::new_in(target_dir)`). -/
def libTempPath (cargo_manifest_dir : String) (tempName : String) : String :=
  cargo_manifest_dir ++ "/src/" ++ tempName

/-- src/io.rs `write_lib_file`: render, create a fresh temporary file in
the target's directory, write the rendered content to it, run `cargo fmt`
on it (any failure is only a warning: every arm of the `match` falls
through), then atomically persist the temporary file over
`src/lib.rs`.  On every failing step the temporary file is dropped
(deleted) and the file at the canonical path is left as it was. -/
def write_lib_file (env : SaveEnv) (cargo_manifest_dir : String)
    (fs : FS) : SaveOutcome × FS :=
  match env.renderResult with
  | Except.error e => (SaveOutcome.codegenError e, fs)
  | Except.ok content =>
    let target_path := libTargetPath cargo_manifest_dir
    let temp_path := libTempPath cargo_manifest_dir env.tempName
    if !env.tempCreateOk then (SaveOutcome.ioError "temp file creation", fs)
    else
      let fs1 := fsSet fs temp_path ""
      if !env.writeOk then (SaveOutcome.ioError "write", fsRemove fs1 temp_path)
      else
        let fs2 := fsSet fs1 temp_path content
        match env.fmt.runOk, env.fmt.exitSuccess with
        | true, true =>
          if !env.persistOk then
            (SaveOutcome.ioError "atomic rename", fsRemove fs2 temp_path)
          else (SaveOutcome.ok, fsSet (fsRemove fs2 temp_path) target_path content)
        | true, false =>
          if !env.persistOk then
            (SaveOutcome.ioError "atomic rename", fsRemove fs2 temp_path)
          else (SaveOutcome.ok, fsSet (fsRemove fs2 temp_path) target_path content)
        | false, _ =>
          if !env.persistOk then
            (SaveOutcome.ioError "atomic rename", fsRemove fs2 temp_path)
          else (SaveOutcome.ok, fsSet (fsRemove fs2 temp_path) target_path content)

/-!
## Helper lemmas
-/

lemma mem_insertionSort {α : Type _} {r : α → α → Prop} [DecidableRel r]
    {l : List α} {a : α} : a ∈ List.insertionSort r l ↔ a ∈ l :=
  (List.perm_insertionSort r l).mem_iff

lemma mem_discover_included (w : Workspace) (p : SolanaProgram) :
    p ∈ w.discover_programs.included ↔
      p ∈ w.candidates ∧ filterIncluded w.filter_mode p = true := by
  simp [Workspace.discover_programs, mem_insertionSort, List.mem_filter]

lemma mem_discover_excluded (w : Workspace) (p : SolanaProgram) :
    p ∈ w.discover_programs.excluded ↔
      p ∈ w.candidates ∧ filterIncluded w.filter_mode p = false := by
  simp [Workspace.discover_programs, mem_insertionSort, List.mem_filter]

lemma mpp_target (p : SolanaProgram) (body : String) :
    matches_program_pattern p ("target:" ++ body) =
      matches_glob p.target_name body := rfl

lemma mpp_package (p : SolanaProgram) (body : String) :
    matches_program_pattern p ("package:" ++ body) =
      matches_glob p.package_name body := rfl

lemma mpp_path (p : SolanaProgram) (body : String) :
    matches_program_pattern p ("path:" ++ body) =
      matches_glob p.manifest_path body := rfl

/-- Sample catalog used by the concrete witnesses below. -/
def samplePackage : Package :=
  { name := "my_package"
    manifest_path := "/workspace/Cargo.toml"
    targets := [{ name := "test_program", crate_types := ["cdylib"] },
                { name := "util", crate_types := ["lib"] }] }

/-- Sample metadata collaborator: every manifest path resolves to the
single-package catalog above. -/
def sampleMetaOf : Option String → Metadata := fun _ =>
  { workspace_root := "/workspace", packages := [samplePackage] }

/-- The candidate discovered from the sample catalog. -/
def sampleProgram : SolanaProgram :=
  { manifest_path := "/workspace/Cargo.toml"
    package_name := "my_package"
    target_name := "test_program" }

/-!
## Claims
-/

/-- C1: In Permissive mode every configured workspace gets the filter
`global_deny ++ local deny`, and a candidate artifact program is included
iff no pattern of that merged list matches it — otherwise it is excluded —
where a pattern matches under the attribute selected by its namespace
(`target:` the target name, `package:` the package name, `path:` the
manifest path string). -/
theorem permissive_included_iff_no_deny_matches
    (metaOf : Option String → Metadata)
    (wss : List PermissiveWorkspaceConfig) (global_deny : List String)
    (wcfg : PermissiveWorkspaceConfig) (p : SolanaProgram)
    (hp : p ∈ (mkPermissiveWorkspace metaOf global_deny wcfg).candidates) :
    load_workspaces metaOf (Config.permissive wss global_deny) =
        wss.map (mkPermissiveWorkspace metaOf global_deny) ∧
    (p ∈ ((mkPermissiveWorkspace metaOf global_deny wcfg).discover_programs).included ↔
        ∀ pat ∈ global_deny ++ wcfg.deny,
          matches_program_pattern p pat = false) ∧
    (p ∈ ((mkPermissiveWorkspace metaOf global_deny wcfg).discover_programs).excluded ↔
        ∃ pat ∈ global_deny ++ wcfg.deny,
          matches_program_pattern p pat = true) ∧
    (∀ body, matches_program_pattern p ("target:" ++ body) =
        matches_glob p.target_name body) ∧
    (∀ body, matches_program_pattern p ("package:" ++ body) =
        matches_glob p.package_name body) ∧
    (∀ body, matches_program_pattern p ("path:" ++ body) =
        matches_glob p.manifest_path body) := by
  refine ⟨rfl, ?_, ?_, mpp_target p, mpp_package p, mpp_path p⟩
  · rw [mem_discover_included, and_iff_right hp]
    simp only [mkPermissiveWorkspace, filterIncluded,
      should_include_program_permissive, List.any_eq_true, Bool.not_eq_true',
      List.any_eq_false, List.mem_append, Bool.not_eq_true]
  · rw [mem_discover_excluded, and_iff_right hp]
    simp only [mkPermissiveWorkspace, filterIncluded,
      should_include_program_permissive, List.mem_append]
    constructor
    · intro h
      have hany : (global_deny ++ wcfg.deny).any
          (fun pat => matches_program_pattern p pat) = true := by
        cases hb : (global_deny ++ wcfg.deny).any
            fun pat => matches_program_pattern p pat
        · rw [hb] at h
          exact absurd h (by decide)
        · rfl
      obtain ⟨pat, hpat, hm⟩ := List.any_eq_true.mp hany
      exact ⟨pat, List.mem_append.mp hpat, hm⟩
    · rintro ⟨pat, hor, hm⟩
      have hany : (global_deny ++ wcfg.deny).any
          (fun pat => matches_program_pattern p pat) = true :=
        List.any_eq_true.mpr ⟨pat, List.mem_append.mpr hor, hm⟩
      rw [hany]
      rfl

/-- C1 witness: with global deny `package:apl-*` and local deny
`target:test*`, the sample candidate (target `test_program`) matches the
local deny pattern, so it lands in `excluded`, not `included`. -/
theorem permissive_included_iff_no_deny_matches_witness :
    load_workspaces sampleMetaOf
        (Config.permissive [⟨"/workspace/Cargo.toml", ["target:test*"]⟩]
          ["package:apl-*"]) =
      [⟨"/workspace/Cargo.toml", ["target:test*"]⟩].map
        (mkPermissiveWorkspace sampleMetaOf ["package:apl-*"]) ∧
    (sampleProgram ∈ ((mkPermissiveWorkspace sampleMetaOf ["package:apl-*"]
        ⟨"/workspace/Cargo.toml", ["target:test*"]⟩).discover_programs).included ↔
      ∀ pat ∈ ["package:apl-*"] ++ ["target:test*"],
        matches_program_pattern sampleProgram pat = false) ∧
    (sampleProgram ∈ ((mkPermissiveWorkspace sampleMetaOf ["package:apl-*"]
        ⟨"/workspace/Cargo.toml", ["target:test*"]⟩).discover_programs).excluded ↔
      ∃ pat ∈ ["package:apl-*"] ++ ["target:test*"],
        matches_program_pattern sampleProgram pat = true) ∧
    (∀ body, matches_program_pattern sampleProgram ("target:" ++ body) =
        matches_glob sampleProgram.target_name body) ∧
    (∀ body, matches_program_pattern sampleProgram ("package:" ++ body) =
        matches_glob sampleProgram.package_name body) ∧
    (∀ body, matches_program_pattern sampleProgram ("path:" ++ body) =
        matches_glob sampleProgram.manifest_path body) :=
  permissive_included_iff_no_deny_matches sampleMetaOf
    [⟨"/workspace/Cargo.toml", ["target:test*"]⟩] ["package:apl-*"]
    ⟨"/workspace/Cargo.toml", ["target:test*"]⟩ sampleProgram (by decide)

/-- C2: In Exclusive (laser-eyes) mode a candidate is included iff at
least one pattern of the workspace's `only` list matches it, and with an
empty `only` list the included list is empty for every catalog. -/
theorem laser_eyes_included_iff_only_matches
    (metaOf : Option String → Metadata)
    (wss : List LaserEyesWorkspaceConfig)
    (wcfg : LaserEyesWorkspaceConfig) (p : SolanaProgram) :
    load_workspaces metaOf (Config.laserEyes wss) =
        wss.map (mkLaserEyesWorkspace metaOf) ∧
    (wcfg.only = [] →
      ((mkLaserEyesWorkspace metaOf wcfg).discover_programs).included = []) ∧
    (p ∈ (mkLaserEyesWorkspace metaOf wcfg).candidates →
      ((p ∈ ((mkLaserEyesWorkspace metaOf wcfg).discover_programs).included ↔
          ∃ pat ∈ wcfg.only, matches_program_pattern p pat = true) ∧
       (p ∈ ((mkLaserEyesWorkspace metaOf wcfg).discover_programs).excluded ↔
          ∀ pat ∈ wcfg.only, matches_program_pattern p pat = false))) := by
  refine ⟨rfl, ?_, fun hp => ⟨?_, ?_⟩⟩
  · intro honly
    simp [Workspace.discover_programs, mkLaserEyesWorkspace, filterIncluded,
      should_only_include_program, honly, List.filter_eq_nil_iff,
      List.insertionSort]
  · rw [mem_discover_included, and_iff_right hp]
    simp [mkLaserEyesWorkspace, filterIncluded,
      should_only_include_program, List.any_eq_true]
  · rw [mem_discover_excluded, and_iff_right hp]
    simp [mkLaserEyesWorkspace, filterIncluded,
      should_only_include_program, List.any_eq_true]

/-- C2 witness: with `only = ["target:token*"]` the sample candidate
(target `test_program`) matches nothing, so it is excluded; and the
empty-`only` consequence is instantiated as well. -/
theorem laser_eyes_included_iff_only_matches_witness :
    load_workspaces sampleMetaOf
        (Config.laserEyes [⟨"/workspace/Cargo.toml", ["target:token*"]⟩]) =
      [⟨"/workspace/Cargo.toml", ["target:token*"]⟩].map
        (mkLaserEyesWorkspace sampleMetaOf) ∧
    ((⟨"/workspace/Cargo.toml", ["target:token*"]⟩ :
        LaserEyesWorkspaceConfig).only = [] →
      ((mkLaserEyesWorkspace sampleMetaOf
        ⟨"/workspace/Cargo.toml", ["target:token*"]⟩).discover_programs).included = []) ∧
    (sampleProgram ∈ (mkLaserEyesWorkspace sampleMetaOf
        ⟨"/workspace/Cargo.toml", ["target:token*"]⟩).candidates →
      ((sampleProgram ∈ ((mkLaserEyesWorkspace sampleMetaOf
          ⟨"/workspace/Cargo.toml", ["target:token*"]⟩).discover_programs).included ↔
          ∃ pat ∈ ["target:token*"],
            matches_program_pattern sampleProgram pat = true) ∧
       (sampleProgram ∈ ((mkLaserEyesWorkspace sampleMetaOf
          ⟨"/workspace/Cargo.toml", ["target:token*"]⟩).discover_programs).excluded ↔
          ∀ pat ∈ ["target:token*"],
            matches_program_pattern sampleProgram pat = false))) :=
  laser_eyes_included_iff_only_matches sampleMetaOf
    [⟨"/workspace/Cargo.toml", ["target:token*"]⟩]
    ⟨"/workspace/Cargo.toml", ["target:token*"]⟩ sampleProgram

/-- The glob body a pattern carries, when it has a recognized namespace:
mirrors the namespace cascade of `matches_program_pattern`. -/
def patternBody (pat : String) : Option String :=
  match stripPre "target:" pat with
  | some b => some b
  | none =>
    match stripPre "package:" pat with
    | some b => some b
    | none => stripPre "path:" pat

/-- C3: a pattern without a recognized namespace (`patternBody` is
`none`), or whose glob body is unparsable (`Pattern.new` is `none`),
matches no candidate: `matches_program_pattern` returns `false` (it is a
total function, so it never panics); malformed patterns can never cause a
match. -/
theorem malformed_pattern_never_matches (p : SolanaProgram) (pat : String)
    (h : (patternBody pat).all (fun b => (Pattern.new b).isNone) = true) :
    matches_program_pattern p pat = false := by
  unfold matches_program_pattern
  unfold patternBody at h
  cases h1 : stripPre "target:" pat with
  | some b =>
    rw [h1] at h
    simp only [Option.all_some, Option.isNone_iff_eq_none] at h
    simp [matches_glob, h]
  | none =>
    rw [h1] at h
    cases h2 : stripPre "package:" pat with
    | some b =>
      rw [h2] at h
      simp only [Option.all_some, Option.isNone_iff_eq_none] at h
      simp [matches_glob, h]
    | none =>
      rw [h2] at h
      cases h3 : stripPre "path:" pat with
      | some b =>
        rw [h3] at h
        simp only [Option.all_some, Option.isNone_iff_eq_none] at h
        simp [matches_glob, h]
      | none => simp

/-- C3 witness: the pattern `target:[invalid` has a recognized namespace
but an unbalanced character class, so it matches nothing. -/
theorem malformed_pattern_never_matches_witness :
    matches_program_pattern sampleProgram "target:[invalid" = false :=
  malformed_pattern_never_matches sampleProgram "target:[invalid" (by decide)

/-!
## C4: deduplication lemmas
-/

lemma dedupeFirstOcc_length_le (seen : List String)
    (l : List SolanaProgram) : (dedupeFirstOcc seen l).length ≤ l.length := by
  induction l generalizing seen with
  | nil => simp [dedupeFirstOcc]
  | cons a rest ih =>
    rw [dedupeFirstOcc]
    split
    · exact le_trans (ih seen) (Nat.le_succ _)
    · simpa using Nat.succ_le_succ (ih (a.manifest_path :: seen))

lemma dedupeFirstOcc_find (seen : List String) (l : List SolanaProgram) :
    ∀ p ∈ dedupeFirstOcc seen l, p.manifest_path ∉ seen ∧
      l.find? (fun q => q.manifest_path == p.manifest_path) = some p := by
  induction l generalizing seen with
  | nil => simp [dedupeFirstOcc]
  | cons a rest ih =>
    intro p hp
    by_cases ha : a.manifest_path ∈ seen
    · rw [dedupeFirstOcc, if_pos ha] at hp
      obtain ⟨hnot, hfind⟩ := ih seen p hp
      have hne : (a.manifest_path == p.manifest_path) = false := by
        rw [beq_eq_false_iff_ne]
        intro he
        exact hnot (he ▸ ha)
      refine ⟨hnot, ?_⟩
      rw [List.find?_cons, hne]
      exact hfind
    · rw [dedupeFirstOcc, if_neg ha] at hp
      rcases List.mem_cons.mp hp with rfl | hp'
      · refine ⟨ha, ?_⟩
        rw [List.find?_cons, beq_self_eq_true]
      · obtain ⟨hnot, hfind⟩ := ih (a.manifest_path :: seen) p hp'
        have hne : (a.manifest_path == p.manifest_path) = false := by
          rw [beq_eq_false_iff_ne]
          intro he
          exact hnot (he ▸ List.mem_cons_self _ _)
        refine ⟨fun hs => hnot (List.mem_cons_of_mem _ hs), ?_⟩
        rw [List.find?_cons, hne]
        exact hfind

lemma dedupeFirstOcc_cover (seen : List String) (l : List SolanaProgram) :
    ∀ q ∈ l, q.manifest_path ∈ seen ∨
      ∃ p ∈ dedupeFirstOcc seen l, p.manifest_path = q.manifest_path := by
  induction l generalizing seen with
  | nil => simp
  | cons a rest ih =>
    intro q hq
    by_cases ha : a.manifest_path ∈ seen
    · rw [dedupeFirstOcc, if_pos ha]
      rcases List.mem_cons.mp hq with rfl | hq'
      · exact Or.inl ha
      · exact ih seen q hq'
    · rw [dedupeFirstOcc, if_neg ha]
      rcases List.mem_cons.mp hq with rfl | hq'
      · exact Or.inr ⟨q, List.mem_cons_self _ _, rfl⟩
      · rcases ih (a.manifest_path :: seen) q hq' with hs | ⟨p, hp, he⟩
        · rcases List.mem_cons.mp hs with he | hs'
          · exact Or.inr ⟨a, List.mem_cons_self _ _, he.symm⟩
          · exact Or.inl hs'
        · exact Or.inr ⟨p, List.mem_cons_of_mem _ hp, he⟩

/-- C4: `deduplicate_programs` keeps, for every manifest path, exactly
the first-seen candidate of the input carrying it (so every output
element is the `find?`-first of its group and every input manifest path
is still represented), re-sorted by target name ascending — a
deterministic order independent of enumeration order — with output
length at most the input length and empty exactly when the input is
empty. -/
theorem deduplicate_programs_spec (programs : List SolanaProgram) :
    List.Sorted targetLe (deduplicate_programs programs) ∧
    (deduplicate_programs programs).length ≤ programs.length ∧
    (deduplicate_programs programs = [] ↔ programs = []) ∧
    (∀ p ∈ deduplicate_programs programs,
      programs.find? (fun q => q.manifest_path == p.manifest_path) = some p) ∧
    (∀ q ∈ programs, ∃ p ∈ deduplicate_programs programs,
      p.manifest_path = q.manifest_path) := by
  have hperm := List.perm_insertionSort targetLe (dedupeFirstOcc [] programs)
  refine ⟨List.sorted_insertionSort targetLe _, ?_, ?_, ?_, ?_⟩
  · rw [deduplicate_programs, hperm.length_eq]
    exact dedupeFirstOcc_length_le [] programs
  · constructor
    · intro hempty
      cases hp : programs with
      | nil => rfl
      | cons a rest =>
        exfalso
        have : a ∈ deduplicate_programs programs := by
          rw [deduplicate_programs, mem_insertionSort, hp, dedupeFirstOcc,
            if_neg (List.not_mem_nil a.manifest_path)]
          exact List.mem_cons_self _ _
        rw [hempty] at this
        exact List.not_mem_nil a this
    · intro hp
      rw [deduplicate_programs, hp]
      rfl
  · intro p hp
    rw [deduplicate_programs, mem_insertionSort] at hp
    exact (dedupeFirstOcc_find [] programs p hp).2
  · intro q hq
    rcases dedupeFirstOcc_cover [] programs q hq with hs | ⟨p, hp, he⟩
    · exact absurd hs (List.not_mem_nil _)
    · exact ⟨p, by rw [deduplicate_programs, mem_insertionSort]; exact hp, he⟩

/-- Programs exercising deduplication in the witness: two candidates
share a manifest path, a third is distinct. -/
def aplToken : SolanaProgram :=
  { manifest_path := "/repo/token/Cargo.toml"
    package_name := "apl-token"
    target_name := "apl_token" }

/-- Second discovery of the same program (identical manifest path). -/
def aplTokenDup : SolanaProgram :=
  { manifest_path := "/repo/token/Cargo.toml"
    package_name := "apl-token"
    target_name := "apl_token" }

/-- A distinct program for the deduplication witness. -/
def escrowProgram : SolanaProgram :=
  { manifest_path := "/repo/examples/escrow/program/Cargo.toml"
    package_name := "escrow_program"
    target_name := "escrow_program" }

/-- C4 witness: the specification instantiated on a concrete input with a
duplicated manifest path. -/
theorem deduplicate_programs_spec_witness :
    List.Sorted targetLe
        (deduplicate_programs [escrowProgram, aplToken, aplTokenDup]) ∧
    (deduplicate_programs [escrowProgram, aplToken, aplTokenDup]).length ≤
        [escrowProgram, aplToken, aplTokenDup].length ∧
    (deduplicate_programs [escrowProgram, aplToken, aplTokenDup] = [] ↔
        [escrowProgram, aplToken, aplTokenDup] = []) ∧
    (∀ p ∈ deduplicate_programs [escrowProgram, aplToken, aplTokenDup],
      [escrowProgram, aplToken, aplTokenDup].find?
        (fun q => q.manifest_path == p.manifest_path) = some p) ∧
    (∀ q ∈ [escrowProgram, aplToken, aplTokenDup],
      ∃ p ∈ deduplicate_programs [escrowProgram, aplToken, aplTokenDup],
        p.manifest_path = q.manifest_path) :=
  deduplicate_programs_spec [escrowProgram, aplToken, aplTokenDup]

/-!
## C5: the batch build loop
-/

/-- The successful-case projection of one build outcome. -/
def buildOkEntry (buildOne : SolanaProgram → Except BuildError String)
    (p : SolanaProgram) : Option (SolanaProgram × String) :=
  match buildOne p with
  | Except.ok path => some (p, path)
  | Except.error _ => none

/-- The failing-case projection of one build outcome. -/
def buildErrEntry (buildOne : SolanaProgram → Except BuildError String)
    (p : SolanaProgram) : Option (SolanaProgram × BuildError) :=
  match buildOne p with
  | Except.ok _ => none
  | Except.error e => some (p, e)

lemma build_programs_go (buildOne : SolanaProgram → Except BuildError String)
    (programs : List SolanaProgram) (acc : BuildResult) :
    programs.foldl
      (fun result program =>
        match buildOne program with
        | Except.ok path =>
          { result with successful := result.successful ++ [(program, path)] }
        | Except.error e =>
          { result with failed := result.failed ++ [(program, e)] }) acc =
    { successful := acc.successful ++ programs.filterMap (buildOkEntry buildOne)
      failed := acc.failed ++ programs.filterMap (buildErrEntry buildOne) } := by
  induction programs generalizing acc with
  | nil => simp
  | cons a rest ih =>
    rw [List.foldl_cons]
    cases h : buildOne a with
    | ok path =>
      rw [ih]
      simp [buildOkEntry, buildErrEntry, h, List.filterMap_cons]
    | error e =>
      rw [ih]
      simp [buildOkEntry, buildErrEntry, h, List.filterMap_cons]

lemma build_programs_outcome_perm
    (buildOne : SolanaProgram → Except BuildError String)
    (programs : List SolanaProgram) :
    ((programs.filterMap (buildOkEntry buildOne)).map Prod.fst ++
      (programs.filterMap (buildErrEntry buildOne)).map Prod.fst).Perm
      programs := by
  induction programs with
  | nil => simp
  | cons a rest ih =>
    cases h : buildOne a with
    | ok path =>
      simp only [List.filterMap_cons, buildOkEntry, buildErrEntry, h]
      exact (ih.cons a).trans (List.Perm.refl _) |>.symm.symm
    | error e =>
      simp only [List.filterMap_cons, buildOkEntry, buildErrEntry, h,
        List.map_cons]
      exact List.perm_middle.trans (ih.cons a)

/-- C5: `build_programs` attempts every program: the report's successes
are exactly the inputs whose individual build succeeds (with the built
artifact path) and its failures exactly those whose build fails (with
the error detail), both in input order, so — whatever the per-program
outcomes — the inputs are exactly the successes and failures together
and no per-candidate failure aborts the batch. -/
theorem build_programs_partial_failure
    (buildOne : SolanaProgram → Except BuildError String)
    (programs : List SolanaProgram) :
    (build_programs buildOne programs).successful =
        programs.filterMap (buildOkEntry buildOne) ∧
    (build_programs buildOne programs).failed =
        programs.filterMap (buildErrEntry buildOne) ∧
    (build_programs buildOne programs).successful.length +
        (build_programs buildOne programs).failed.length = programs.length ∧
    ((build_programs buildOne programs).successful.map Prod.fst ++
      (build_programs buildOne programs).failed.map Prod.fst).Perm
        programs := by
  have hgo := build_programs_go buildOne programs
    { successful := [], failed := [] }
  have hs : (build_programs buildOne programs).successful =
      programs.filterMap (buildOkEntry buildOne) := by
    rw [build_programs, hgo]
    simp
  have hf : (build_programs buildOne programs).failed =
      programs.filterMap (buildErrEntry buildOne) := by
    rw [build_programs, hgo]
    simp
  have hperm := build_programs_outcome_perm buildOne programs
  refine ⟨hs, hf, ?_, ?_⟩
  · have := hperm.length_eq
    simpa [hs, hf] using this
  · rw [hs, hf]
    exact hperm

/-- A per-program build behaviour for the C5 witness: the `bad` target
fails, everything else succeeds. -/
def sampleBuildOne : SolanaProgram → Except BuildError String := fun p =>
  if p.target_name = "bad" then
    Except.error { program := p.target_name, error := "build failed" }
  else Except.ok (p.target_name ++ ".so")

/-- A failing program for the C5 witness. -/
def badProgram : SolanaProgram :=
  { manifest_path := "/repo/bad/Cargo.toml"
    package_name := "bad_pkg"
    target_name := "bad" }

/-- C5 witness: on a batch of three programs whose middle build fails,
the report still carries all three, as two successes and one failure. -/
theorem build_programs_partial_failure_witness :
    (build_programs sampleBuildOne [escrowProgram, badProgram, aplToken]).successful =
        [escrowProgram, badProgram, aplToken].filterMap
          (buildOkEntry sampleBuildOne) ∧
    (build_programs sampleBuildOne [escrowProgram, badProgram, aplToken]).failed =
        [escrowProgram, badProgram, aplToken].filterMap
          (buildErrEntry sampleBuildOne) ∧
    (build_programs sampleBuildOne [escrowProgram, badProgram, aplToken]).successful.length +
        (build_programs sampleBuildOne [escrowProgram, badProgram, aplToken]).failed.length =
          [escrowProgram, badProgram, aplToken].length ∧
    ((build_programs sampleBuildOne [escrowProgram, badProgram, aplToken]).successful.map
        Prod.fst ++
      (build_programs sampleBuildOne [escrowProgram, badProgram, aplToken]).failed.map
        Prod.fst).Perm [escrowProgram, badProgram, aplToken] :=
  build_programs_partial_failure sampleBuildOne
    [escrowProgram, badProgram, aplToken]

/-!
## C6: the single-program build
-/

/-- C6: `build_program` removes any pre-existing output file before
invoking the build, so its result is independent of the initial file
system — a stale artifact can never mask a failure — and a success is
only reported when the command itself deposited the expected file.
Non-zero (or signal) exit yields a failure whose detail carries the
debug-formatted exit status, and a missing output file after a
successful exit yields a failure naming the expected path. -/
theorem build_program_failure_modes (tempDir : String) (cmd : CmdBehavior)
    (fs : List String) (program : SolanaProgram) :
    (∀ fs', (build_program tempDir cmd fs program).1 =
        (build_program tempDir cmd fs' program).1) ∧
    ((build_program tempDir cmd fs program).1 =
        Except.ok (program_so_path tempDir program) →
      program_so_path tempDir program ∈ cmd.filesCreated) ∧
    (cmd.spawnOk = true → cmd.exitCode ≠ some 0 →
      (build_program tempDir cmd fs program).1 = Except.error
        { program := program.target_name
          error := "cargo build-sbf failed with exit code: " ++
            optionIntDebug cmd.exitCode }) ∧
    (cmd.spawnOk = true → cmd.exitCode = some 0 →
      program_so_path tempDir program ∉ cmd.filesCreated →
      (build_program tempDir cmd fs program).1 = Except.error
        { program := program.target_name
          error := "Expected .so file not found at: " ++
            program_so_path tempDir program }) := by
  refine ⟨?_, ?_, ?_, ?_⟩
  · intro fs'
    unfold build_program
    cases hspawn : cmd.spawnOk
    · simp
    · cases hsucc : statusSuccess cmd
      · simp
      · by_cases hin : program_so_path tempDir program ∈ cmd.filesCreated
        · simp [hin]
        · simp [hin]
  · intro hok
    by_cases hin : program_so_path tempDir program ∈ cmd.filesCreated
    · exact hin
    · exfalso
      unfold build_program at hok
      cases hspawn : cmd.spawnOk
      · rw [hspawn] at hok
        simp at hok
      · rw [hspawn] at hok
        cases hsucc : statusSuccess cmd
        · rw [hsucc] at hok
          simp at hok
        · rw [hsucc] at hok
          simp [hin] at hok
  · intro hspawn hcode
    have hsucc : statusSuccess cmd = false := by
      rw [statusSuccess, beq_eq_false_iff_ne]
      exact hcode
    unfold build_program
    rw [hspawn, hsucc]
    simp
  · intro hspawn hcode hin
    have hsucc : statusSuccess cmd = true := by
      rw [statusSuccess, hcode]
      exact beq_self_eq_true _
    unfold build_program
    rw [hspawn, hsucc]
    simp [hin]

/-- The command behaviour for the C6 witness: spawn succeeds, the build
exits with code 1 and deposits nothing. -/
def failingCmd : CmdBehavior :=
  { spawnOk := true, exitCode := some 1, filesCreated := [] }

/-- C6 witness: with exit code 1 (and a stale artifact already at the
expected path) the result is the failure carrying `Some(1)`, never a
success. -/
theorem build_program_failure_modes_witness :
    (∀ fs', (build_program "/tmp" failingCmd
        [program_so_path "/tmp" sampleProgram] sampleProgram).1 =
        (build_program "/tmp" failingCmd fs' sampleProgram).1) ∧
    ((build_program "/tmp" failingCmd
        [program_so_path "/tmp" sampleProgram] sampleProgram).1 =
        Except.ok (program_so_path "/tmp" sampleProgram) →
      program_so_path "/tmp" sampleProgram ∈ failingCmd.filesCreated) ∧
    (failingCmd.spawnOk = true → failingCmd.exitCode ≠ some 0 →
      (build_program "/tmp" failingCmd
        [program_so_path "/tmp" sampleProgram] sampleProgram).1 = Except.error
        { program := sampleProgram.target_name
          error := "cargo build-sbf failed with exit code: " ++
            optionIntDebug failingCmd.exitCode }) ∧
    (failingCmd.spawnOk = true → failingCmd.exitCode = some 0 →
      program_so_path "/tmp" sampleProgram ∉ failingCmd.filesCreated →
      (build_program "/tmp" failingCmd
        [program_so_path "/tmp" sampleProgram] sampleProgram).1 = Except.error
        { program := sampleProgram.target_name
          error := "Expected .so file not found at: " ++
            program_so_path "/tmp" sampleProgram }) :=
  build_program_failure_modes "/tmp" failingCmd
    [program_so_path "/tmp" sampleProgram] sampleProgram

/-!
## C7: atomic replacement of the generated file
-/

lemma fsGet_cons (a : String × String) (rest : FS) (q : String) :
    fsGet (a :: rest) q =
      if (a.fst == q) = true then some a.snd else fsGet rest q := by
  rw [fsGet, List.find?_cons]
  cases h : a.fst == q
  · simp [h, fsGet]
  · simp [h]

lemma fsGet_fsSet_self (fs : FS) (p c : String) :
    fsGet (fsSet fs p c) p = some c := by
  rw [fsSet, fsGet_cons]
  simp

lemma fsGet_fsRemove_self (fs : FS) (p : String) :
    fsGet (fsRemove fs p) p = none := by
  induction fs with
  | nil => rfl
  | cons a rest ih =>
    by_cases ha : a.fst = p
    · rw [show fsRemove (a :: rest) p = fsRemove rest p by
        simp [fsRemove, List.filter_cons, ha]]
      exact ih
    · rw [show fsRemove (a :: rest) p = a :: fsRemove rest p by
        simp [fsRemove, List.filter_cons, ha]]
      rw [fsGet_cons]
      have hne : (a.fst == p) = false := beq_eq_false_iff_ne.mpr ha
      rw [hne]
      simpa using ih

lemma fsGet_fsRemove_ne (fs : FS) (p q : String) (h : q ≠ p) :
    fsGet (fsRemove fs p) q = fsGet fs q := by
  induction fs with
  | nil => rfl
  | cons a rest ih =>
    by_cases ha : a.fst = p
    · rw [show fsRemove (a :: rest) p = fsRemove rest p by
        simp [fsRemove, List.filter_cons, ha]]
      have haq : (a.fst == q) = false := by
        rw [beq_eq_false_iff_ne, ha]
        exact fun he => h he.symm
      rw [ih, fsGet_cons, haq]
      simp
    · rw [show fsRemove (a :: rest) p = a :: fsRemove rest p by
        simp [fsRemove, List.filter_cons, ha]]
      rw [fsGet_cons, fsGet_cons, ih]

lemma fsGet_fsSet_ne (fs : FS) (p q c : String) (h : q ≠ p) :
    fsGet (fsSet fs p c) q = fsGet fs q := by
  have hpq : (p == q) = false := beq_eq_false_iff_ne.mpr fun he => h he.symm
  rw [fsSet, fsGet_cons]
  simp only [hpq]
  simpa using fsGet_fsRemove_ne fs p q h

/-- C7: `write_lib_file` is insensitive to the formatting collaborator's
outcome (a `cargo fmt` failure is a warning, never a pipeline error);
it succeeds exactly when rendering, temp-file creation, the write and
the atomic rename all succeed, in which case the canonical path holds
the rendered content and no temporary file remains; and whenever the
outcome is not success, the file at the canonical path is exactly what
it was before the call. -/
theorem write_lib_file_atomic (env : SaveEnv) (dir : String) (fs : FS)
    (hfresh : libTempPath dir env.tempName ≠ libTargetPath dir)
    (hclean : fsGet fs (libTempPath dir env.tempName) = none) :
    (∀ fmt', write_lib_file { env with fmt := fmt' } dir fs =
        write_lib_file env dir fs) ∧
    ((write_lib_file env dir fs).1 = SaveOutcome.ok ↔
      (∃ c, env.renderResult = Except.ok c) ∧ env.tempCreateOk = true ∧
        env.writeOk = true ∧ env.persistOk = true) ∧
    (∀ content, env.renderResult = Except.ok content →
      (write_lib_file env dir fs).1 = SaveOutcome.ok →
      fsGet (write_lib_file env dir fs).2 (libTargetPath dir) = some content) ∧
    ((write_lib_file env dir fs).1 ≠ SaveOutcome.ok →
      fsGet (write_lib_file env dir fs).2 (libTargetPath dir) =
        fsGet fs (libTargetPath dir)) ∧
    fsGet (write_lib_file env dir fs).2 (libTempPath dir env.tempName) =
      none := by
  obtain ⟨render, tempName, tc, wo, ⟨fr, fe⟩, po⟩ := env
  simp only at hfresh hclean
  have htne : libTargetPath dir ≠ libTempPath dir tempName :=
    fun h => hfresh h.symm
  cases render with
  | error e =>
    refine ⟨fun fmt' => ?_, ?_, ?_, ?_, ?_⟩
    · obtain ⟨fr', fe'⟩ := fmt'
      cases fr' <;> cases fe' <;> cases fr <;> cases fe <;> rfl
    · simp [write_lib_file]
    · intro content hc
      exact absurd hc (by simp)
    · intro _
      rfl
    · exact hclean
  | ok content =>
    cases tc with
    | false =>
      refine ⟨fun fmt' => ?_, ?_, ?_, ?_, ?_⟩
      · obtain ⟨fr', fe'⟩ := fmt'
        cases fr' <;> cases fe' <;> cases fr <;> cases fe <;> rfl
      · simp [write_lib_file]
      · intro c hc hok
        exact absurd hok (by simp [write_lib_file])
      · intro _
        rfl
      · exact hclean
    | true =>
      cases wo with
      | false =>
        refine ⟨fun fmt' => ?_, ?_, ?_, ?_, ?_⟩
        · obtain ⟨fr', fe'⟩ := fmt'
          cases fr' <;> cases fe' <;> cases fr <;> cases fe <;> rfl
        · simp [write_lib_file]
        · intro c hc hok
          exact absurd hok (by simp [write_lib_file])
        · intro _
          show fsGet (fsRemove (fsSet fs (libTempPath dir tempName) "")
              (libTempPath dir tempName)) (libTargetPath dir) =
            fsGet fs (libTargetPath dir)
          rw [fsGet_fsRemove_ne _ _ _ htne, fsGet_fsSet_ne _ _ _ _ htne]
        · show fsGet (fsRemove (fsSet fs (libTempPath dir tempName) "")
              (libTempPath dir tempName)) (libTempPath dir tempName) = none
          exact fsGet_fsRemove_self _ _
      | true =>
        cases po with
        | false =>
          refine ⟨fun fmt' => ?_, ?_, ?_, ?_, ?_⟩
          · obtain ⟨fr', fe'⟩ := fmt'
            cases fr' <;> cases fe' <;> cases fr <;> cases fe <;> rfl
          · cases fr <;> cases fe <;> simp [write_lib_file]
          · intro c hc hok
            refine absurd hok ?_
            cases fr <;> cases fe <;> simp [write_lib_file]
          · intro _
            cases fr <;> cases fe <;>
              (show fsGet (fsRemove
                    (fsSet (fsSet fs (libTempPath dir tempName) "")
                      (libTempPath dir tempName) content)
                    (libTempPath dir tempName)) (libTargetPath dir) =
                  fsGet fs (libTargetPath dir)
               rw [fsGet_fsRemove_ne _ _ _ htne,
                 fsGet_fsSet_ne _ _ _ _ htne, fsGet_fsSet_ne _ _ _ _ htne])
          · cases fr <;> cases fe <;>
              (show fsGet (fsRemove
                    (fsSet (fsSet fs (libTempPath dir tempName) "")
                      (libTempPath dir tempName) content)
                    (libTempPath dir tempName)) (libTempPath dir tempName) =
                  none
               exact fsGet_fsRemove_self _ _)
        | true =>
          refine ⟨fun fmt' => ?_, ?_, ?_, ?_, ?_⟩
          · obtain ⟨fr', fe'⟩ := fmt'
            cases fr' <;> cases fe' <;> cases fr <;> cases fe <;> rfl
          · cases fr <;> cases fe <;> simp [write_lib_file]
          · intro c hc hok
            have hc' : c = content := by
              injection hc with h
              exact h.symm
            subst hc'
            cases fr <;> cases fe <;>
              (show fsGet (fsSet (fsRemove
                    (fsSet (fsSet fs (libTempPath dir tempName) "")
                      (libTempPath dir tempName) c)
                    (libTempPath dir tempName)) (libTargetPath dir) c)
                  (libTargetPath dir) = some c
               exact fsGet_fsSet_self _ _ _)
          · intro hne
            refine absurd ?_ hne
            cases fr <;> cases fe <;> simp [write_lib_file]
          · cases fr <;> cases fe <;>
              (show fsGet (fsSet (fsRemove
                    (fsSet (fsSet fs (libTempPath dir tempName) "")
                      (libTempPath dir tempName) content)
                    (libTempPath dir tempName)) (libTargetPath dir) content)
                  (libTempPath dir tempName) = none
               rw [fsGet_fsSet_ne _ _ _ _ hfresh]
               exact fsGet_fsRemove_self _ _)

/-- The environment for the C7 witness: rendering succeeds, every IO
step succeeds, but `cargo fmt` exits non-zero — which must not disturb
the pipeline. -/
def sampleSaveEnv : SaveEnv :=
  { renderResult := Except.ok "// generated"
    tempName := ".tmpAb12Cd"
    tempCreateOk := true
    writeOk := true
    fmt := { runOk := true, exitSuccess := false }
    persistOk := true }

/-- C7 witness: on an initial file system holding an earlier generated
file, the run with a failing formatter still succeeds, the canonical
path receives the new content, and no temporary file remains. -/
theorem write_lib_file_atomic_witness :
    (∀ fmt', write_lib_file { sampleSaveEnv with fmt := fmt' } "/proj"
        [("/proj/src/lib.rs", "// old")] =
      write_lib_file sampleSaveEnv "/proj" [("/proj/src/lib.rs", "// old")]) ∧
    ((write_lib_file sampleSaveEnv "/proj"
        [("/proj/src/lib.rs", "// old")]).1 = SaveOutcome.ok ↔
      (∃ c, sampleSaveEnv.renderResult = Except.ok c) ∧
        sampleSaveEnv.tempCreateOk = true ∧ sampleSaveEnv.writeOk = true ∧
        sampleSaveEnv.persistOk = true) ∧
    (∀ content, sampleSaveEnv.renderResult = Except.ok content →
      (write_lib_file sampleSaveEnv "/proj"
        [("/proj/src/lib.rs", "// old")]).1 = SaveOutcome.ok →
      fsGet (write_lib_file sampleSaveEnv "/proj"
        [("/proj/src/lib.rs", "// old")]).2 (libTargetPath "/proj") =
          some content) ∧
    ((write_lib_file sampleSaveEnv "/proj"
        [("/proj/src/lib.rs", "// old")]).1 ≠ SaveOutcome.ok →
      fsGet (write_lib_file sampleSaveEnv "/proj"
        [("/proj/src/lib.rs", "// old")]).2 (libTargetPath "/proj") =
        fsGet [("/proj/src/lib.rs", "// old")] (libTargetPath "/proj")) ∧
    fsGet (write_lib_file sampleSaveEnv "/proj"
        [("/proj/src/lib.rs", "// old")]).2
      (libTempPath "/proj" sampleSaveEnv.tempName) = none :=
  write_lib_file_atomic sampleSaveEnv "/proj"
    [("/proj/src/lib.rs", "// old")] (by decide) (by decide)

/-!
## C8: constant-name derivation
-/

lemma upper_eq_spec_map (l : List Char)
    (h : ∀ c ∈ l, c.isAlphanum ∨ c = '_') :
    l.map Char.toUpper =
      l.map (fun c => if c.isAlphanum then c.toUpper else '_') := by
  induction l with
  | nil => rfl
  | cons a rest ih =>
    have ha := h a (List.mem_cons_self _ _)
    have hrest := ih fun c hc => h c (List.mem_cons_of_mem _ hc)
    rcases ha with ha | ha
    · simp [ha, hrest]
    · subst ha
      have h1 : ('_' : Char).isAlphanum = false := by decide
      have h2 : ('_' : Char).toUpper = '_' := by decide
      simp [h1, h2, hrest]

/-- C8 counterexample: `constant_name` does not replace non-alphanumeric
separators: for the target name `token-manager` the code produces
`TOKEN-MANAGER_ELF`, not the `TOKEN_MANAGER_ELF` the claim's
separator-replacing derivation (`specConstantName`) yields. -/
theorem constant_name_no_separator_replacement :
    DomainSolanaProgram.constant_name
        { name := "token-manager"
          path := "programs/token-manager"
          manifest_path := "programs/token-manager/Cargo.toml" } =
      "TOKEN-MANAGER_ELF" ∧
    specConstantName "token-manager" = "TOKEN_MANAGER_ELF" ∧
    DomainSolanaProgram.constant_name
        { name := "token-manager"
          path := "programs/token-manager"
          manifest_path := "programs/token-manager/Cargo.toml" } ≠
      specConstantName "token-manager" := by
  refine ⟨by decide, by decide, by decide⟩

/-- C8 (amended): the derived constant name is the uppercased target
name with the fixed `_ELF` suffix; non-alphanumeric characters are kept
as they are, not replaced — so the derivation agrees with the spec's
separator-replacing one exactly on names made of alphanumerics and
underscores — and the targets `token_manager` and `governance` do yield
`TOKEN_MANAGER_ELF` and `GOVERNANCE_ELF`. -/
theorem constant_name_uppercase_suffix (p : DomainSolanaProgram)
    (h : ∀ c ∈ p.name.data, c.isAlphanum ∨ c = '_') :
    p.constant_name = rustToUppercase p.name ++ "_ELF" ∧
    p.constant_name = specConstantName p.name ∧
    DomainSolanaProgram.constant_name
        { name := "token_manager"
          path := "programs/token-manager"
          manifest_path := "programs/token-manager/Cargo.toml" } =
      "TOKEN_MANAGER_ELF" ∧
    DomainSolanaProgram.constant_name
        { name := "governance"
          path := "programs/governance"
          manifest_path := "programs/governance/Cargo.toml" } =
      "GOVERNANCE_ELF" := by
  refine ⟨rfl, ?_, by decide, by decide⟩
  show rustToUppercase p.name ++ "_ELF" = specConstantName p.name
  rw [specConstantName, rustToUppercase, upper_eq_spec_map p.name.data h]

/-- C8 witness: the amended statement instantiated at `token_manager`,
whose name is alphanumerics and underscores only. -/
theorem constant_name_uppercase_suffix_witness :
    DomainSolanaProgram.constant_name
        { name := "token_manager"
          path := "programs/token-manager"
          manifest_path := "programs/token-manager/Cargo.toml" } =
      rustToUppercase "token_manager" ++ "_ELF" ∧
    DomainSolanaProgram.constant_name
        { name := "token_manager"
          path := "programs/token-manager"
          manifest_path := "programs/token-manager/Cargo.toml" } =
      specConstantName "token_manager" ∧
    DomainSolanaProgram.constant_name
        { name := "token_manager"
          path := "programs/token-manager"
          manifest_path := "programs/token-manager/Cargo.toml" } =
      "TOKEN_MANAGER_ELF" ∧
    DomainSolanaProgram.constant_name
        { name := "governance"
          path := "programs/governance"
          manifest_path := "programs/governance/Cargo.toml" } =
      "GOVERNANCE_ELF" :=
  constant_name_uppercase_suffix
    { name := "token_manager"
      path := "programs/token-manager"
      manifest_path := "programs/token-manager/Cargo.toml" } (by decide)

/-!
## C9, C10: invariants of discovery
-/

lemma discover_partition_perm (w : Workspace) :
    (w.discover_programs.included ++ w.discover_programs.excluded).Perm
      w.candidates := by
  have h1 := List.perm_insertionSort targetLe
    (w.candidates.filter fun p => filterIncluded w.filter_mode p)
  have h2 := List.perm_insertionSort targetLe
    (w.candidates.filter fun p => !filterIncluded w.filter_mode p)
  exact (h1.append h2).trans
    (List.filter_append_perm (fun p => filterIncluded w.filter_mode p)
      w.candidates)

lemma mem_candidates (w : Workspace) (p : SolanaProgram) :
    p ∈ w.candidates ↔ ∃ pkg ∈ w.metadata.packages, ∃ t ∈ pkg.targets,
      "cdylib" ∈ t.crate_types ∧ p = toProgram pkg t := by
  rw [Workspace.candidates, List.mem_flatMap]
  constructor
  · rintro ⟨pkg, hpkg, hmem⟩
    rw [List.mem_filterMap] at hmem
    obtain ⟨t, ht, hsome⟩ := hmem
    by_cases hc : "cdylib" ∈ t.crate_types
    · rw [if_pos hc] at hsome
      exact ⟨pkg, hpkg, t, ht, hc, (Option.some_inj.mp hsome).symm⟩
    · rw [if_neg hc] at hsome
      exact absurd hsome (by simp)
  · rintro ⟨pkg, hpkg, t, ht, hc, rfl⟩
    refine ⟨pkg, hpkg, ?_⟩
    rw [List.mem_filterMap]
    exact ⟨t, ht, by rw [if_pos hc]⟩

/-- C9 counterexample: two packages exposing identically named `cdylib`
targets, one denied by a `package:` pattern: the target name `foo`
appears in both the included and the excluded list, so the two lists'
target-name sets are not disjoint. -/
def cexGoodPackage : Package :=
  { name := "good"
    manifest_path := "/w/good/Cargo.toml"
    targets := [{ name := "foo", crate_types := ["cdylib"] }] }

/-- The denied package of the C9 counterexample. -/
def cexBadPackage : Package :=
  { name := "bad"
    manifest_path := "/w/bad/Cargo.toml"
    targets := [{ name := "foo", crate_types := ["cdylib"] }] }

/-- The workspace of the C9 counterexample. -/
def cexWorkspace : Workspace :=
  { metadata := { workspace_root := "/w"
                  packages := [cexGoodPackage, cexBadPackage] }
    manifest_path := "/w/Cargo.toml"
    filter_mode := FilterMode.deny ["package:bad"] }

/-- C9 counterexample theorem: in `cexWorkspace` the discovered lists
share the target name `foo`, refuting target-name-set disjointness. -/
theorem discover_target_names_not_disjoint :
    "foo" ∈ (cexWorkspace.discover_programs).included.map
        (fun p => p.target_name) ∧
    "foo" ∈ (cexWorkspace.discover_programs).excluded.map
        (fun p => p.target_name) := by
  refine ⟨by decide, by decide⟩

/-- C9 (amended): both discovered lists carry non-decreasing target
names, and the lists partition the candidates — every candidate
occurrence classifies into exactly one list, and no program is in both —
but the target-NAME sets of the two lists may intersect (distinct
packages can expose identically named targets). -/
theorem discover_sorted_partition (w : Workspace) :
    (w.discover_programs.included.map (fun p => p.target_name)).Sorted
        (· ≤ ·) ∧
    (w.discover_programs.excluded.map (fun p => p.target_name)).Sorted
        (· ≤ ·) ∧
    (∀ p, p ∈ w.discover_programs.included →
      p ∉ w.discover_programs.excluded) ∧
    (w.discover_programs.included ++ w.discover_programs.excluded).Perm
      w.candidates := by
  refine ⟨?_, ?_, ?_, discover_partition_perm w⟩
  · rw [List.Sorted, List.pairwise_map]
    exact List.sorted_insertionSort targetLe _
  · rw [List.Sorted, List.pairwise_map]
    exact List.sorted_insertionSort targetLe _
  · intro p hinc hexc
    rw [mem_discover_included] at hinc
    rw [mem_discover_excluded] at hexc
    rw [hinc.2] at hexc
    exact absurd hexc.2 (by simp)

/-- C9 witness: the amended statement instantiated at the counterexample
workspace. -/
theorem discover_sorted_partition_witness :
    ((cexWorkspace.discover_programs).included.map
        (fun p => p.target_name)).Sorted (· ≤ ·) ∧
    ((cexWorkspace.discover_programs).excluded.map
        (fun p => p.target_name)).Sorted (· ≤ ·) ∧
    (∀ p, p ∈ (cexWorkspace.discover_programs).included →
      p ∉ (cexWorkspace.discover_programs).excluded) ∧
    ((cexWorkspace.discover_programs).included ++
      (cexWorkspace.discover_programs).excluded).Perm
        cexWorkspace.candidates :=
  discover_sorted_partition cexWorkspace

/-- C10: discovery considers only `cdylib` targets: every program of
either discovered list arises from a (package, target) pair whose crate
types contain `cdylib`, the two lists together are exactly the `cdylib`
candidates, and a candidate exists precisely for such pairs — so a
target without the `cdylib` crate type contributes to neither list,
under every filter mode. -/
theorem discover_considers_only_cdylib (w : Workspace) :
    (∀ p, p ∈ w.discover_programs.included ∨
        p ∈ w.discover_programs.excluded →
      ∃ pkg ∈ w.metadata.packages, ∃ t ∈ pkg.targets,
        "cdylib" ∈ t.crate_types ∧ p = toProgram pkg t) ∧
    (∀ p, p ∈ w.candidates ↔ ∃ pkg ∈ w.metadata.packages,
      ∃ t ∈ pkg.targets, "cdylib" ∈ t.crate_types ∧ p = toProgram pkg t) ∧
    (w.discover_programs.included ++ w.discover_programs.excluded).Perm
      w.candidates := by
  refine ⟨?_, mem_candidates w, discover_partition_perm w⟩
  intro p hp
  have hc : p ∈ w.candidates := by
    rcases hp with h | h
    · exact ((mem_discover_included w p).mp h).1
    · exact ((mem_discover_excluded w p).mp h).1
  exact (mem_candidates w p).mp hc

/-- A workspace whose catalog mixes a `cdylib` target with plain `lib`
targets, for the C10 witness. -/
def mixedWorkspace : Workspace :=
  { metadata := { workspace_root := "/workspace"
                  packages := [samplePackage] }
    manifest_path := "/workspace/Cargo.toml"
    filter_mode := FilterMode.magic }

/-- C10 witness: the statement instantiated at a catalog containing a
non-`cdylib` target (`util`), which consequently reaches neither list. -/
theorem discover_considers_only_cdylib_witness :
    (∀ p, p ∈ (mixedWorkspace.discover_programs).included ∨
        p ∈ (mixedWorkspace.discover_programs).excluded →
      ∃ pkg ∈ mixedWorkspace.metadata.packages, ∃ t ∈ pkg.targets,
        "cdylib" ∈ t.crate_types ∧ p = toProgram pkg t) ∧
    (∀ p, p ∈ mixedWorkspace.candidates ↔
      ∃ pkg ∈ mixedWorkspace.metadata.packages, ∃ t ∈ pkg.targets,
        "cdylib" ∈ t.crate_types ∧ p = toProgram pkg t) ∧
    ((mixedWorkspace.discover_programs).included ++
      (mixedWorkspace.discover_programs).excluded).Perm
        mixedWorkspace.candidates :=
  discover_considers_only_cdylib mixedWorkspace

end ElfMagic
